import Mathlib

set_option maxRecDepth 4000

/-!
Verification of the host-side communication driver in
`artiq/coredevice/comm_generic.py` (class `CommGeneric`).

Modelling conventions of this shallow embedding:
* a byte is a `Nat` in `0..255`; byte strings are `List Nat`;
* Python `str` values are carried as their UTF-8 byte sequences, and the
  `encode("utf-8")` / `decode("utf-8")` steps are the identity on that
  representation;
* IEEE-754 doubles are carried opaquely as their eight wire bytes;
* the abstract channel (`read`/`write` of `CommGeneric`) is a `List Nat` of
  pending inbound bytes that `read` consumes from the front, and outbound
  `write`s are collected into a `List Nat`;
* fallible Python code is embedded in `Except Err`; recursive procedures
  take a fuel argument (structural recursion on the fuel), `Err.fuel`
  marking exhaustion.
-/

/-- Python values handled by the RPC value codec of `CommGeneric`
(`_receive_rpc_value` / `_send_rpc_value`).  `sentinel` is the private
`_rpc_sentinel` object; `keyword` is the `RPCKeyword` namedtuple; `range`
components are the (integer) `start`/`stop`/`step` members of a Python
range object. -/
inductive Value where
  | sentinel
  | none
  | bool (b : Bool)
  | int (n : Int)
  | float (bytes8 : List Nat)
  | fraction (num den : Int)
  | str (bytes : List Nat)
  | tuple (elts : List Value)
  | list (elts : List Value)
  | range (start stop step : Int)
  | keyword (name : List Nat) (value : Value)

/-- The `expected()` description built by the `check` helper inside
`_send_rpc_value` (the "type" slot of the `RPCReturnValueError` message). -/
inductive ExpectedTy where
  | tupleOf (n : Nat)
  | noneTy
  | boolTy
  | int32Ty
  | int64Ty
  | floatTy
  | fraction64Ty
  | strTy
  | listTy
  | rangeTy
  deriving DecidableEq

/-- Errors raised by the embedded code: framing errors of `_read_header` /
`_read_chunk`, `struct` packing range errors, the RPC codec errors, and the
bookkeeping errors of the embedding (`fuel`). -/
inductive Err where
  | fuel
  | transport
  | indexError
  | typeError
  | valueError
  | zeroDivision
  | assertionFailed
  | structError
  | retrieveError
  | readUnderrun (remaining : Int)
  | connectionClosed
  | unknownMsgType (b : Nat)
  | headerOverrun (remaining : Int)
  | readOverrun (length : Int)
  | unknownTag (t : Nat)
  | unexpectedReply (got : Nat) (want : Nat)
  | unsupportedDevice (runtimeId : List Nat)
  | rpcReturnValue (value : Value) (expected : ExpectedTy) (function : List Nat) (root : Value)

/-- Big-endian interpretation of a byte sequence (the accumulating loop of
`struct.unpack` on `>`-ordered data). -/
def decodeNatBE (bs : List Nat) : Nat :=
  bs.foldl (fun a b => a * 256 + b) 0

/-- The four big-endian bytes of `n % 2^32` (`struct.pack(">l")` payload). -/
def encodeNat32 (n : Nat) : List Nat :=
  [n / 2 ^ 24 % 256, n / 2 ^ 16 % 256, n / 2 ^ 8 % 256, n % 256]

/-- The eight big-endian bytes of `n % 2^64` (`struct.pack(">q")` payload). -/
def encodeNat64 (n : Nat) : List Nat :=
  [n / 2 ^ 56 % 256, n / 2 ^ 48 % 256, n / 2 ^ 40 % 256, n / 2 ^ 32 % 256,
   n / 2 ^ 24 % 256, n / 2 ^ 16 % 256, n / 2 ^ 8 % 256, n % 256]

/-- `struct.unpack(">l", bs)`: signed big-endian 32-bit integer. -/
def decodeI32 (bs : List Nat) : Int :=
  let n := decodeNatBE bs
  if n < 2 ^ 31 then (n : Int) else (n : Int) - 2 ^ 32

/-- `struct.unpack(">q", bs)`: signed big-endian 64-bit integer. -/
def decodeI64 (bs : List Nat) : Int :=
  let n := decodeNatBE bs
  if n < 2 ^ 63 then (n : Int) else (n : Int) - 2 ^ 64

/-- `struct.pack("B", v)`: one byte; raises `struct.error` out of `0..255`. -/
def packInt8 (v : Int) : Except Err (List Nat) :=
  if 0 ≤ v ∧ v < 256 then .ok [v.toNat] else .error .structError

/-- `struct.pack(">l", v)`: four big-endian bytes; raises `struct.error`
outside the signed 32-bit range. -/
def packInt32 (v : Int) : Except Err (List Nat) :=
  if -2 ^ 31 ≤ v ∧ v < 2 ^ 31 then .ok (encodeNat32 ((v % 2 ^ 32).toNat))
  else .error .structError

/-- `struct.pack(">q", v)`: eight big-endian bytes; raises `struct.error`
outside the signed 64-bit range. -/
def packInt64 (v : Int) : Except Err (List Nat) :=
  if -2 ^ 63 ≤ v ∧ v < 2 ^ 63 then .ok (encodeNat64 ((v % 2 ^ 64).toNat))
  else .error .structError

/-!  ## Writer interface (`_write_header`, `_write_chunk`, `_write_flush`) -/

/-- Outbound builder state: `self._write_type` and `self._write_buffer`. -/
structure WriteSt where
  wtype : Nat
  chunks : List (List Nat)
  deriving DecidableEq

/-- `_write_header(ty)`: records the type and resets `_write_buffer` to `[]`.
The previous builder contents are discarded. -/
def writeHeader (ty : Nat) (_st : WriteSt) : WriteSt :=
  ⟨ty, []⟩

/-- `_write_chunk(chunk)`: appends one chunk to `_write_buffer`. -/
def writeChunk (c : List Nat) (st : WriteSt) : WriteSt :=
  ⟨st.wtype, st.chunks ++ [c]⟩

/-- `_write_flush`: computes `length = sum(len(chunk))`, writes
`struct.pack(">llB", 0x5a5a5a5a, 9 + length, type)` followed by every chunk
in order.  The builder state is returned unchanged: the source mutates
neither `_write_type` nor `_write_buffer` here. -/
def writeFlush (st : WriteSt) : Except Err (WriteSt × List Nat) := do
  let length : Int := ((st.chunks.map List.length).sum : Nat)
  let syncB ← packInt32 1515870810
  let lenB ← packInt32 (9 + length)
  let tyB ← packInt8 (st.wtype : Int)
  .ok (st, syncB ++ lenB ++ tyB ++ st.chunks.flatten)

/-!  ## Reader interface (`_read_header`, `_read_chunk`, primitives) -/

/-- `self.read(n)`: exactly `n` bytes from the channel, or failure. -/
def readExact (n : Nat) (s : List Nat) : Except Err (List Nat × List Nat) :=
  if s.length < n then .error .transport else .ok (s.take n, s.drop n)

/-- The synchronization loop of `_read_header`: consume bytes until four
consecutive `0x5a` have been seen, any other byte resetting the counter;
`none` when the channel runs dry. -/
def waitSync : Nat → List Nat → Option (List Nat)
  | c, [] => if 4 ≤ c then some [] else Option.none
  | c, b :: r =>
      if 4 ≤ c then some (b :: r)
      else waitSync (if b = 90 then c + 1 else 0) r

/-- `_read_header`: underrun check on the previous message's remaining
count, sync scan, signed 32-bit total length (zero meaning in-band
connection close), message type byte (must name a `_D2HMsgType`, values
1..15), and the `length < 9` header check; on success returns the type
byte, the new `_read_length` (`length - 9`) and the rest of the channel. -/
def readHeader (rlen : Int) (s : List Nat) : Except Err (Nat × Int × List Nat) :=
  if 0 < rlen then .error (.readUnderrun rlen)
  else
    match waitSync 0 s with
    | Option.none => .error .transport
    | some s1 =>
      match readExact 4 s1 with
      | .error e => .error e
      | .ok (lenB, s2) =>
        let length := decodeI32 lenB
        if length = 0 then .error .connectionClosed
        else
          match readExact 1 s2 with
          | .error e => .error e
          | .ok (tyB, s3) =>
            let ty := decodeNatBE tyB
            if 1 ≤ ty ∧ ty ≤ 15 then
              if length < 9 then .error (.headerOverrun length)
              else .ok (ty, length - 9, s3)
            else .error (.unknownMsgType ty)

/-- `_read_chunk(length)`: fails with a read overrun when more than
`_read_length` bytes are requested, otherwise consumes them and decrements
`_read_length` by exactly `length`. -/
def readChunk (n : Int) (rlen : Int) (s : List Nat) :
    Except Err (List Nat × Int × List Nat) :=
  if rlen < n then .error (.readOverrun n)
  else
    match readExact n.toNat s with
    | .error e => .error e
    | .ok (bs, s') => .ok (bs, rlen - n, s')

/-- Inbound parser state while inside a message body: the pair of
`self._read_length` and the pending channel bytes. -/
structure RSt where
  rlen : Int
  input : List Nat
  deriving DecidableEq

/-- `_read_chunk` acting on an `RSt`. -/
def readChunkR (n : Int) (st : RSt) : Except Err (List Nat × RSt) :=
  match readChunk n st.rlen st.input with
  | .error e => .error e
  | .ok (bs, r, s) => .ok (bs, ⟨r, s⟩)

/-- `_read_int8`. -/
def readInt8R (st : RSt) : Except Err (Nat × RSt) := do
  let (bs, st') ← readChunkR 1 st
  .ok (decodeNatBE bs, st')

/-- `_read_int32`. -/
def readInt32R (st : RSt) : Except Err (Int × RSt) := do
  let (bs, st') ← readChunkR 4 st
  .ok (decodeI32 bs, st')

/-- `_read_int64`. -/
def readInt64R (st : RSt) : Except Err (Int × RSt) := do
  let (bs, st') ← readChunkR 8 st
  .ok (decodeI64 bs, st')

/-- `_read_bytes`: a chunk whose length is a leading signed 32-bit count. -/
def readBytesR (st : RSt) : Except Err (List Nat × RSt) := do
  let (n, st') ← readInt32R st
  readChunkR n st'

/-- `_read_string`: `_read_bytes()[:-1]` (UTF-8 decode is the identity on
the byte representation used here). -/
def readStringR (st : RSt) : Except Err (List Nat × RSt) := do
  let (bs, st') ← readBytesR st
  .ok (bs.dropLast, st')

/-!  ## Tagged value codec -/

/-- The value of a Python object under `isinstance(value, int)`: Python
`bool` is a subclass of `int`, so both variants qualify. -/
def pyIntVal : Value → Option Int
  | .bool b => some (if b then 1 else 0)
  | .int n => some n
  | _ => Option.none

/-- `Fraction(num, den)`: `ZeroDivisionError` on a zero denominator,
otherwise the sign-normalized reduced pair. -/
def mkFraction (n d : Int) : Except Err Value :=
  if d = 0 then .error .zeroDivision
  else
    let g : Int := (Int.gcd n d : Nat)
    let s : Int := if d < 0 then -1 else 1
    .ok (.fraction (s * n / g) (s * d / g))

/-- `_skip_rpc_value(tags)`.  Unlike `_send_rpc_value`, the source reads
`tag = tags.pop(0)` without `chr()`, so `tag` is the int popped from the
bytearray, and the branch tests `tag == "t"`, `tag == "l"`, `tag == "r"`
compare an int with a one-character string — always `False` in Python.
Only the final `else: pass` is therefore reachable: the function pops
exactly one byte and never descends into the `t`/`l`/`r` sub-grammars its
dead branches name.  The result is the caller-visible rest of the (shared,
mutated in place) tag stream; `indexError` models `pop` from an empty
stream, and the fuel mirrors the (unreachable) recursion of the source. -/
def skipRpcValue : Nat → List Nat → Except Err (List Nat)
  | 0, _ => .error .fuel
  | _ + 1, [] => .error .indexError
  | _ + 1, _tag :: rest => .ok rest

/-- `_send_rpc_value(tags, value, root, function)`.  The result is the pair
of the caller-visible rest of the shared tag stream and the list of chunks
appended to the outbound builder.  In the `l` branch the element passes run
on fresh copies (`bytearray(tags)`) of the suffix and the shared stream is
then advanced by `_skip_rpc_value`; in the `r` branch all three component
passes run on fresh copies and the final Python statement `tags =
tags_copy` only rebinds the local name, so the shared stream that the
caller sees has lost nothing beyond the leading `r` byte itself. -/
def sendRpcValue : Nat → List Nat → Value → Value → List Nat →
    Except Err (List Nat × List (List Nat))
  | 0, _, _, _, _ => .error .fuel
  | _ + 1, [], _, _, _ => .error .indexError
  | f + 1, tag :: rest, v, root, function =>
      if tag = 116 then
        match rest with
        | [] => .error .indexError
        | len :: rest2 =>
            match v with
            | .tuple elts =>
                if len = elts.length then
                  elts.foldlM
                    (fun acc e => do
                      let (t', o) ← sendRpcValue f acc.1 e root function
                      .ok (t', acc.2 ++ o))
                    ((rest2, []) : List Nat × List (List Nat))
                else .error (.rpcReturnValue v (.tupleOf len) function root)
            | _ => .error (.rpcReturnValue v (.tupleOf len) function root)
      else if tag = 110 then
        match v with
        | .none => .ok (rest, [])
        | _ => .error (.rpcReturnValue v .noneTy function root)
      else if tag = 98 then
        match v with
        | .bool b => do
            let c ← packInt8 (if b then 1 else 0)
            .ok (rest, [c])
        | _ => .error (.rpcReturnValue v .boolTy function root)
      else if tag = 105 then
        match pyIntVal v with
        | some n =>
            if -2 ^ 31 < n ∧ n < 2 ^ 31 - 1 then do
              let c ← packInt32 n
              .ok (rest, [c])
            else .error (.rpcReturnValue v .int32Ty function root)
        | Option.none => .error (.rpcReturnValue v .int32Ty function root)
      else if tag = 73 then
        match pyIntVal v with
        | some n =>
            if -2 ^ 63 < n ∧ n < 2 ^ 63 - 1 then do
              let c ← packInt64 n
              .ok (rest, [c])
            else .error (.rpcReturnValue v .int64Ty function root)
        | Option.none => .error (.rpcReturnValue v .int64Ty function root)
      else if tag = 102 then
        match v with
        | .float b8 => .ok (rest, [b8])
        | _ => .error (.rpcReturnValue v .floatTy function root)
      else if tag = 70 then
        match v with
        | .fraction num den =>
            if (-2 ^ 63 < num ∧ num < 2 ^ 63 - 1) ∧
               (-2 ^ 63 < den ∧ den < 2 ^ 63 - 1) then do
              let c1 ← packInt64 num
              let c2 ← packInt64 den
              .ok (rest, [c1, c2])
            else .error (.rpcReturnValue v .fraction64Ty function root)
        | _ => .error (.rpcReturnValue v .fraction64Ty function root)
      else if tag = 115 then
        match v with
        | .str sb =>
            if 0 ∈ sb then .error (.rpcReturnValue v .strTy function root)
            else do
              let lenC ← packInt32 ((sb.length : Int) + 1)
              .ok (rest, [lenC, sb ++ [0]])
        | _ => .error (.rpcReturnValue v .strTy function root)
      else if tag = 108 then
        match v with
        | .list elts => do
            let lenC ← packInt32 (elts.length : Int)
            let outs ← elts.foldlM
              (fun acc e => do
                let (_, o) ← sendRpcValue f rest e root function
                .ok (acc ++ o))
              [lenC]
            let tags' ← skipRpcValue f rest
            .ok (tags', outs)
        | _ => .error (.rpcReturnValue v .listTy function root)
      else if tag = 114 then
        match v with
        | .range a b c => do
            let (_, o1) ← sendRpcValue f rest (.int a) root function
            let (_, o2) ← sendRpcValue f rest (.int b) root function
            let (_, o3) ← sendRpcValue f rest (.int c) root function
            .ok (rest, o1 ++ o2 ++ o3)
        | _ => .error (.rpcReturnValue v .rangeTy function root)
      else .error (.unknownTag tag)

/-- `_receive_rpc_value(embedding_map)`: reads one tag byte and dispatches.
`emap` models `embedding_map.retrieve_object` (an external collaborator),
`Option.none` meaning an unknown identifier.  The `r` branch mirrors Python
`range(start, stop, step)`: its arguments must be integers (`bool`
included) and the step must be nonzero. -/
def receiveRpcValue (emap : Int → Option Value) : Nat → RSt →
    Except Err (Value × RSt)
  | 0, _ => .error .fuel
  | f + 1, st => do
      let (tag, st) ← readInt8R st
      if tag = 0 then .ok (.sentinel, st)
      else if tag = 116 then do
        let (len, st) ← readInt8R st
        let (st, vs) ← (List.range len).foldlM
          (fun (acc : RSt × List Value) _ => do
            let (v, st') ← receiveRpcValue emap f acc.1
            .ok (st', acc.2 ++ [v])) (st, [])
        .ok (.tuple vs, st)
      else if tag = 110 then .ok (.none, st)
      else if tag = 98 then do
        let (n, st) ← readInt8R st
        .ok (.bool (n ≠ 0), st)
      else if tag = 105 then do
        let (n, st) ← readInt32R st
        .ok (.int n, st)
      else if tag = 73 then do
        let (n, st) ← readInt64R st
        .ok (.int n, st)
      else if tag = 102 then do
        let (b8, st) ← readChunkR 8 st
        .ok (.float b8, st)
      else if tag = 70 then do
        let (num, st) ← readInt64R st
        let (den, st) ← readInt64R st
        let v ← mkFraction num den
        .ok (v, st)
      else if tag = 115 then do
        let (sb, st) ← readStringR st
        .ok (.str sb, st)
      else if tag = 108 then do
        let (len, st) ← readInt32R st
        let (st, vs) ← (List.range len.toNat).foldlM
          (fun (acc : RSt × List Value) _ => do
            let (v, st') ← receiveRpcValue emap f acc.1
            .ok (st', acc.2 ++ [v])) (st, [])
        .ok (.list vs, st)
      else if tag = 114 then do
        let (a, st) ← receiveRpcValue emap f st
        let (b, st) ← receiveRpcValue emap f st
        let (c, st) ← receiveRpcValue emap f st
        match pyIntVal a, pyIntVal b, pyIntVal c with
        | some x, some y, some z =>
            if z = 0 then .error .valueError else .ok (.range x y z, st)
        | _, _, _ => .error .typeError
      else if tag = 107 then do
        let (name, st) ← readStringR st
        let (v, st) ← receiveRpcValue emap f st
        .ok (.keyword name v, st)
      else if tag = 79 then do
        let (i, st) ← readInt32R st
        match emap i with
        | some v => .ok (v, st)
        | Option.none => .error .retrieveError
      else .error (.unknownTag tag)

/-- The keyword-argument dictionary built by `_receive_rpc_args`: an
association list with Python-`dict` assignment (replace the value at an
existing key in place, else append). -/
def dictSet : List (List Nat × Value) → List Nat → Value →
    List (List Nat × Value)
  | [], n, v => [(n, v)]
  | (k, x) :: rest, n, v =>
      if k = n then (k, v) :: rest else (k, x) :: dictSet rest n v

/-- Dictionary lookup (first match; `dictSet` keeps keys unique). -/
def kwLookup : List (List Nat × Value) → List Nat → Option Value
  | [], _ => Option.none
  | (k, x) :: rest, n => if k = n then some x else kwLookup rest n

/-- The worker loop of `_receive_rpc_args`: collect positional values in
order and fold `k`-tagged values into the keyword dictionary until the
sentinel arrives. -/
def receiveArgsLoop (emap : Int → Option Value) :
    Nat → List Value → List (List Nat × Value) → RSt →
    Except Err (List Value × List (List Nat × Value) × RSt)
  | 0, _, _, _ => .error .fuel
  | f + 1, args, kw, st => do
      let (v, st') ← receiveRpcValue emap f st
      match v with
      | .sentinel => .ok (args, kw, st')
      | .keyword n x => receiveArgsLoop emap f args (dictSet kw n x) st'
      | v => receiveArgsLoop emap f (args ++ [v]) kw st'

/-- `_receive_rpc_args(embedding_map)`. -/
def receiveRpcArgs (emap : Int → Option Value) (fuel : Nat) (st : RSt) :
    Except Err (List Value × List (List Nat × Value) × RSt) :=
  receiveArgsLoop emap fuel [] [] st

/-- Specification-side view of the inbound argument sequence: iterated
`_receive_rpc_value` until the sentinel, collecting the raw values. -/
def receiveSeq (emap : Int → Option Value) : Nat → RSt →
    Except Err (List Value × RSt)
  | 0, _ => .error .fuel
  | f + 1, st => do
      let (v, st') ← receiveRpcValue emap f st
      match v with
      | .sentinel => .ok ([], st')
      | v => do
          let (vs, st'') ← receiveSeq emap f st'
          .ok (v :: vs, st'')

/-- A received item is a keyword argument. -/
def isKw : Value → Bool
  | .keyword _ _ => true
  | _ => false

/-- The positional items of a received sequence, in emission order. -/
def positionals (items : List Value) : List Value :=
  items.filter (fun v => !isKw v)

/-- One step of keyword collation. -/
def collateStep (kw : List (List Nat × Value)) (v : Value) :
    List (List Nat × Value) :=
  match v with
  | .keyword n x => dictSet kw n x
  | _ => kw

/-- The value of the last `k`-tagged item with the given name. -/
def lastKw : List Value → List Nat → Option Value
  | [], _ => Option.none
  | v :: rest, name =>
      match lastKw rest name with
      | some x => some x
      | Option.none =>
          match v with
          | .keyword n x => if n = name then some x else Option.none
          | _ => Option.none

/-!  ## `check_ident` -/

/-- `check_ident`: emits an empty `IDENT_REQUEST` (type 3), expects an
`IDENT_REPLY` (type 2) whose body starts with the 4-byte magic `AROR`
(bytes `[65, 82, 79, 82]`), reads the rest of the body as the gateware
version and compares it (tolerating a `.dirty` suffix) against the
software version to decide the mismatch warning.  The result triple is
(request bytes sent, Python return value, warning logged?): the source
function has no `return` statement, so on success the returned value is
`None`, embedded as `Option.none`. -/
def checkIdent (swVersion : List Nat) (rlen : Int) (s : List Nat) :
    Except Err (List Nat × Option (List Nat) × Bool) := do
  let (_, req) ← writeFlush ⟨3, []⟩
  let (ty, rlen1, s1) ← readHeader rlen s
  if ty = 2 then
    match readChunk 4 rlen1 s1 with
    | .error e => .error e
    | .ok (runtimeId, rlen2, s2) =>
      if runtimeId = [65, 82, 79, 82] then
        match readChunk rlen2 rlen2 s2 with
        | .error e => .error e
        | .ok (gv, _, _) =>
          let warned :=
            !(gv == swVersion) &&
            !((gv ++ [46, 100, 105, 114, 116, 121]) == swVersion)
          .ok (req, Option.none, warned)
      else .error (.unsupportedDevice runtimeId)
  else .error (.unexpectedReply ty 2)

/-!  ## `_serve_rpc` -/

/-- One traceback frame `(filename, line, column, function)` as used by the
exception bridge. -/
structure Frame where
  filename : List Nat
  line : Int
  column : Int
  function : List Nat
  deriving DecidableEq

/-- The `artiq_core_exception` record attached to a re-raised kernel
exception: name, message, the three `i64` parameters and a traceback whose
last frame is re-emitted. -/
structure CoreExn where
  name : List Nat
  message : List Nat
  param0 : Int
  param1 : Int
  param2 : Int
  tb : List Frame
  deriving DecidableEq

/-- A Python exception as observed by the `except` block of `_serve_rpc`:
an optional core-exception record, the classification of its type (one of
the builtins `ZeroDivisionError`/`ValueError`/`IndexError` or flagged
`artiq_builtin`), the type's name/module/qualname, the identifier the
embedding map assigns to the type (`store_object`, external), `str(exn)`,
and `traceback.extract_tb(exn.__traceback__, 2)`. -/
structure ExnInfo where
  core : Option CoreExn
  builtinKind : Bool
  typeName : List Nat
  typeModule : List Nat
  typeQualname : List Nat
  storedId : Nat
  msg : List Nat
  tb2 : List Frame
  deriving DecidableEq

/-- Decimal digits of a number, as ASCII bytes (`"{}".format(n)`). -/
def natToDecBytes (n : Nat) : List Nat :=
  (Nat.toDigits 10 n).map Char.toNat

/-- `_write_string(value)`: the two chunks appended by
`_write_bytes(value.encode("utf-8") + b"\x00")`. -/
def writeStringChunks (s : List Nat) : Except Err (List (List Nat)) := do
  let lenC ← packInt32 ((s.length : Int) + 1)
  .ok [lenC, s ++ [0]]

/-- The chunks appended inside the `except` block of `_serve_rpc` for one
exception.  With a core-exception record: name, message, the three
parameters, and the record's last traceback frame (`IndexError` when the
traceback is empty).  Otherwise: `"0:Name"` for a builtin kind or
`"id:module.qualname"` via the stored identifier, `str(exn)`, three zero
parameters, and the frame selected from the up-to-two extracted traceback
frames (the `assert False` branch when there are none or more). -/
def mkExceptionChunks (e : ExnInfo) : Except Err (List (List Nat)) :=
  match e.core with
  | some c => do
      let s1 ← writeStringChunks c.name
      let s2 ← writeStringChunks c.message
      let p0 ← packInt64 c.param0
      let p1 ← packInt64 c.param1
      let p2 ← packInt64 c.param2
      let fr ← match c.tb.getLast? with
        | some fr => .ok fr
        | Option.none => .error .indexError
      let s3 ← writeStringChunks fr.filename
      let l1 ← packInt32 fr.line
      let l2 ← packInt32 fr.column
      let s4 ← writeStringChunks fr.function
      .ok (s1 ++ s2 ++ [p0, p1, p2] ++ s3 ++ [l1, l2] ++ s4)
  | Option.none => do
      let nameBytes :=
        if e.builtinKind then [48, 58] ++ e.typeName
        else natToDecBytes e.storedId ++ [58] ++ e.typeModule ++ [46] ++
          e.typeQualname
      let s1 ← writeStringChunks nameBytes
      let s2 ← writeStringChunks e.msg
      let z ← packInt64 0
      let fr ← match e.tb2 with
        | [fr] => .ok fr
        | [_, fr] => .ok fr
        | _ => .error .assertionFailed
      let s3 ← writeStringChunks fr.filename
      let l1 ← packInt32 fr.line
      let l2 ← packInt32 (-1)
      let s4 ← writeStringChunks fr.function
      .ok (s1 ++ s2 ++ [z, z, z] ++ s3 ++ [l1, l2] ++ s4)

/-- A host-side RPC service: called with the positional arguments and the
keyword dictionary, returning a value or raising. -/
def Service : Type :=
  List Value → List (List Nat × Value) → Except ExnInfo Value

/-- Service selection in `_serve_rpc`: identifier 0 is the setattr builtin
(whose outcome depends on host objects and is therefore a parameter here);
any other identifier goes through `embedding_map.retrieve_object`, whose
failure propagates uncaught. -/
def resolveService (svcMap : Int → Option Service) (setattrSvc : Service)
    (sid : Int) : Except Err Service :=
  if sid = 0 then .ok setattrSvc
  else
    match svcMap sid with
    | some f => .ok f
    | Option.none => .error .retrieveError

/-- The request-parsing prefix of `_serve_rpc`: the i32 service
identifier, the argument values up to the sentinel, and the
length-prefixed return-tag stream. -/
def parseRpcRequest (emap : Int → Option Value) (fuel : Nat) (rlen : Int)
    (s : List Nat) :
    Except Err (Int × List Value × List (List Nat × Value) × List Nat ×
      Int × List Nat) := do
  let (sid, st1) ← readInt32R ⟨rlen, s⟩
  let (args, kw, st2) ← receiveRpcArgs emap fuel st1
  let (rtags, st3) ← readBytesR st2
  .ok (sid, args, kw, rtags, st3.rlen, st3.input)

/-- The `except` path of `_serve_rpc`: `_write_header(RPC_EXCEPTION)`
(type 8) followed by the exception chunks and a flush. -/
def serveRpcExc (e : ExnInfo) (rlen : Int) (s : List Nat) :
    Except Err (Int × List Nat × List Nat) := do
  let cs ← mkExceptionChunks e
  let (_, w) ← writeFlush ⟨8, cs⟩
  .ok (rlen, s, w)

/-- `_serve_rpc(embedding_map)`.  Returns the remaining inbound state and
the bytes written to the channel.  On success with a nonzero service
identifier the reply is an `RPC_REPLY` (type 7) carrying the
length-prefixed return-tag stream and the serialized result; service 0
sends nothing on success.  Python's `except Exception` also catches
errors raised while serializing the reply (for example
`RPCReturnValueError` or `struct.error`); how the host runtime packages
such an error object (type, message, live traceback) is external state,
abstracted as `rpcErrToExn`.  `svcRepr` stands for the `repr` of the
service object interpolated into error messages. -/
def serveRpc (emap : Int → Option Value) (svcMap : Int → Option Service)
    (setattrSvc : Service) (svcRepr : Int → List Nat)
    (rpcErrToExn : Err → ExnInfo) (fuel : Nat) (rlen : Int) (s : List Nat) :
    Except Err (Int × List Nat × List Nat) := do
  let (sid, args, kw, rtags, rlen', s') ← parseRpcRequest emap fuel rlen s
  let svc ← resolveService svcMap setattrSvc sid
  match svc args kw with
  | .ok result =>
      if sid = 0 then .ok (rlen', s', [])
      else
        match (do
          let lenC ← packInt32 ((rtags.length : Int))
          let (_, outs) ← sendRpcValue fuel rtags result result (svcRepr sid)
          writeFlush ⟨7, [lenC, rtags] ++ outs⟩ :
            Except Err (WriteSt × List Nat)) with
        | .ok (_, w) => .ok (rlen', s', w)
        | .error er => serveRpcExc (rpcErrToExn er) rlen' s'
  | .error e => serveRpcExc e rlen' s'

/-!  ## Framing lemmas -/

theorem length_encodeNat32 (n : Nat) : (encodeNat32 n).length = 4 := rfl

theorem decodeNatBE_encodeNat32 (n : Nat) (h : n < 2 ^ 32) :
    decodeNatBE (encodeNat32 n) = n := by
  simp only [decodeNatBE, encodeNat32, List.foldl]
  omega

theorem decodeI32_encodeNat32 (n : Nat) (h : n < 2 ^ 31) :
    decodeI32 (encodeNat32 n) = (n : Int) := by
  simp only [decodeI32, decodeNatBE_encodeNat32 n (by omega)]
  rw [if_pos (by omega)]

theorem readExact_append (p r : List Nat) :
    readExact p.length (p ++ r) = .ok (p, r) := by
  rw [readExact, if_neg (by simp)]
  rw [List.take_left, List.drop_left]

theorem waitSync_done (c : Nat) (s : List Nat) (h : 4 ≤ c) :
    waitSync c s = some s := by
  cases s <;> simp [waitSync, h]

theorem waitSync_sync (r : List Nat) :
    waitSync 0 (90 :: 90 :: 90 :: 90 :: r) = some r := by
  rw [waitSync, if_neg (by omega), if_pos rfl]
  rw [waitSync, if_neg (by omega), if_pos rfl]
  rw [waitSync, if_neg (by omega), if_pos rfl]
  rw [waitSync, if_neg (by omega), if_pos rfl]
  exact waitSync_done 4 r (by omega)

theorem readHeader_frame (t : Nat) (body : List Nat) (h1 : 1 ≤ t)
    (h2 : t ≤ 15) (h3 : body.length + 9 < 2 ^ 31) :
    readHeader 0 ([90, 90, 90, 90] ++ encodeNat32 (9 + body.length) ++
        t :: body) =
      .ok (t, (body.length : Int), body) := by
  rw [readHeader, if_neg (by omega)]
  have hs : [90, 90, 90, 90] ++ encodeNat32 (9 + body.length) ++ t :: body =
      90 :: 90 :: 90 :: 90 :: (encodeNat32 (9 + body.length) ++ t :: body) := by
    simp
  rw [hs, waitSync_sync]
  have h4 : readExact 4 (encodeNat32 (9 + body.length) ++ t :: body) =
      .ok (encodeNat32 (9 + body.length), t :: body) := by
    have := readExact_append (encodeNat32 (9 + body.length)) (t :: body)
    rwa [length_encodeNat32] at this
  have h5 : readExact 1 (t :: body) = .ok ([t], body) :=
    readExact_append [t] body
  have h6 : decodeNatBE [t] = t := by simp [decodeNatBE]
  simp only [h4, h5, h6, decodeI32_encodeNat32 (9 + body.length) (by omega)]
  rw [if_neg (by push_cast; omega), if_pos ⟨h1, h2⟩,
    if_neg (by push_cast; omega)]
  have h7 : ((9 + body.length : Nat) : Int) - 9 = (body.length : Int) := by
    push_cast
    omega
  rw [h7]

theorem waitSync_garbage (G : List Nat) : ∀ (c : Nat) (s : List Nat),
    ¬ [90, 90, 90, 90] <:+: (List.replicate c 90 ++ G) →
    (List.replicate c 90 ++ G).getLast? ≠ some 90 →
    waitSync c (G ++ s) = waitSync 0 s := by
  induction G with
  | nil =>
      intro c s hq hl
      match c with
      | 0 => simp
      | k + 1 =>
          exfalso
          apply hl
          rw [List.append_nil, List.replicate_succ']
          exact List.getLast?_concat _
  | cons b G' ih =>
      intro c s hq hl
      have hc : c < 4 := by
        by_contra hge
        apply hq
        have : List.replicate c 90 =
            List.replicate 4 90 ++ List.replicate (c - 4) 90 := by
          rw [← List.replicate_add]
          congr 1
          omega
        refine List.IsInfix.trans ?_ (List.prefix_append _ _).isInfix
        rw [this]
        exact (List.prefix_append _ _).isInfix
      rw [List.cons_append, waitSync, if_neg (by omega)]
      by_cases hb : b = 90
      · subst hb
        rw [if_pos rfl]
        have heq : List.replicate (c + 1) 90 ++ G' =
            List.replicate c 90 ++ 90 :: G' := by
          rw [List.replicate_succ', List.append_assoc]
          rfl
        apply ih (c + 1) s
        · rw [heq]; exact hq
        · rw [heq]; exact hl
      · rw [if_neg hb]
        apply ih 0 s
        · intro h
          apply hq
          have h' : [90, 90, 90, 90] <:+: G' := h
          exact List.IsInfix.trans h'
            (List.IsInfix.trans (List.suffix_append [b] G').isInfix
              (List.suffix_append (List.replicate c 90) (b :: G')).isInfix)
        · intro h
          apply hl
          have h' : G'.getLast? = some 90 := h
          have hne : G' ≠ [] := by
            intro he
            rw [he] at h'
            simp at h'
          rw [List.getLast?_append_of_ne_nil _ (by simp : (b :: G') ≠ [])]
          have hbg : b :: G' = [b] ++ G' := rfl
          rw [hbg, List.getLast?_append_of_ne_nil _ hne]
          exact h'

theorem writeFlush_frame (ty : Nat) (cs : List (List Nat)) (h1 : ty < 256)
    (h3 : cs.flatten.length + 9 < 2 ^ 31) :
    writeFlush ⟨ty, cs⟩ =
      .ok (⟨ty, cs⟩, [90, 90, 90, 90] ++
        encodeNat32 (9 + cs.flatten.length) ++ ty :: cs.flatten) := by
  have hsum : (cs.map List.length).sum = cs.flatten.length :=
    (List.length_flatten cs).symm
  have e1 : packInt32 1515870810 = .ok [90, 90, 90, 90] := rfl
  have e2 : packInt32 (9 + ((cs.map List.length).sum : Nat) : Int) =
      .ok (encodeNat32 (9 + cs.flatten.length)) := by
    rw [packInt32, if_pos (by constructor <;> omega)]
    congr 2
    omega
  have e3 : packInt8 (ty : Int) = .ok [ty] := by
    rw [packInt8, if_pos (by constructor <;> omega)]
    congr 2
  simp only [writeFlush, e1, e2, e3]
  rfl

theorem readHeader_steps (rl : Int) (hrl : rl ≤ 0) (b0 b1 b2 b3 t : Nat)
    (rest : List Nat) :
    readHeader rl ([90, 90, 90, 90] ++ b0 :: b1 :: b2 :: b3 :: t :: rest) =
      (if decodeI32 [b0, b1, b2, b3] = 0 then .error .connectionClosed
       else if 1 ≤ t ∧ t ≤ 15 then
         if decodeI32 [b0, b1, b2, b3] < 9 then
           .error (.headerOverrun (decodeI32 [b0, b1, b2, b3]))
         else .ok (t, decodeI32 [b0, b1, b2, b3] - 9, rest)
       else .error (.unknownMsgType t)) := by
  rw [readHeader, if_neg (by omega)]
  have hs : [90, 90, 90, 90] ++ b0 :: b1 :: b2 :: b3 :: t :: rest =
      90 :: 90 :: 90 :: 90 :: (b0 :: b1 :: b2 :: b3 :: t :: rest) := rfl
  rw [hs, waitSync_sync]
  have h4 : readExact 4 (b0 :: b1 :: b2 :: b3 :: t :: rest) =
      .ok ([b0, b1, b2, b3], t :: rest) :=
    readExact_append [b0, b1, b2, b3] (t :: rest)
  have h5 : readExact 1 (t :: rest) = .ok ([t], rest) :=
    readExact_append [t] rest
  have h6 : decodeNatBE [t] = t := by simp [decodeNatBE]
  simp only [h4, h5, h6]

theorem buildChunks (ty : Nat) (acc cs : List (List Nat)) :
    cs.foldl (fun st c => writeChunk c st) ⟨ty, acc⟩ = ⟨ty, acc ++ cs⟩ := by
  induction cs generalizing acc with
  | nil => simp
  | cons c cs ih =>
      rw [List.foldl_cons, writeChunk, ih]
      simp

/-- C2: framing a message of any H2D type whose chunks concatenate to the
payload, then parsing the flushed bytes with `_read_header` and reading
the payload length with `_read_chunk`, returns the same type byte and
payload with `remaining_bytes` equal to zero afterwards. -/
theorem c2_envelope_roundtrip (ty : Nat) (cs : List (List Nat))
    (h1 : 1 ≤ ty) (h2 : ty ≤ 12) (h3 : cs.flatten.length + 9 < 2 ^ 31) :
    ∃ w, writeFlush ⟨ty, cs⟩ = .ok (⟨ty, cs⟩, w) ∧
      readHeader 0 w = .ok (ty, (cs.flatten.length : Int), cs.flatten) ∧
      readChunk (cs.flatten.length : Int) (cs.flatten.length : Int)
        cs.flatten = .ok (cs.flatten, 0, []) := by
  refine ⟨_, writeFlush_frame ty cs (by omega) h3, ?_, ?_⟩
  · exact readHeader_frame ty cs.flatten h1 (by omega) h3
  · rw [readChunk, if_neg (by omega)]
    have ht : ((cs.flatten.length : Int)).toNat = cs.flatten.length := by
      omega
    have h := readExact_append cs.flatten []
    rw [List.append_nil] at h
    rw [ht, h]
    simp

theorem c2_envelope_roundtrip_witness :
    ∃ w, writeFlush ⟨2, [[7], [8, 9]]⟩ = .ok (⟨2, [[7], [8, 9]]⟩, w) ∧
      readHeader 0 w =
        .ok (2, (([[7], [8, 9]] : List (List Nat)).flatten.length : Int),
          [7, 8, 9]) ∧
      readChunk ((3 : Nat) : Int) ((3 : Nat) : Int) [7, 8, 9] =
        .ok ([7, 8, 9], 0, []) :=
  c2_envelope_roundtrip 2 [[7], [8, 9]] (by decide) (by decide) (by decide)

/-- C3 counterexample: the one-byte prefix `[0x5A]` contains no
`5A 5A 5A 5A` substring, yet parsing it in front of a valid envelope
(type 2, length 9) steals the prefix byte into the sync run, reads the
length field shifted by one, and returns a different message type and
remaining count than parsing the envelope alone. -/
theorem c3_counterexample :
    ¬ ([90, 90, 90, 90] <:+: [90]) ∧
    readHeader 0 ([90] ++ [90, 90, 90, 90, 0, 0, 0, 9, 2]) =
      .ok (9, 1509949431, [2]) ∧
    readHeader 0 [90, 90, 90, 90, 0, 0, 0, 9, 2] = .ok (2, 0, []) ∧
    ((9 : Nat) ≠ 2 ∨ (1509949431 : Int) ≠ 0) :=
  ⟨by decide, rfl, rfl, by decide⟩

/-- C3 (amended): for every byte prefix that contains no occurrence of
`5A 5A 5A 5A` and does not end with a `0x5A` byte, `_read_header` on the
prefixed stream behaves exactly as on the remaining stream alone (in
particular it yields the same message type and remaining byte count on a
valid envelope). -/
theorem c3_resync (G s : List Nat) (rl : Int)
    (hq : ¬ [90, 90, 90, 90] <:+: G) (hl : G.getLast? ≠ some 90) :
    readHeader rl (G ++ s) = readHeader rl s := by
  rw [readHeader, readHeader]
  by_cases h : 0 < rl
  · rw [if_pos h, if_pos h]
  · rw [if_neg h, if_neg h,
      waitSync_garbage G 0 s (by simpa using hq) (by simpa using hl)]

theorem c3_resync_witness :
    readHeader 0 ([1, 90, 2] ++ [90, 90, 90, 90, 0, 0, 0, 9, 2]) =
      readHeader 0 [90, 90, 90, 90, 0, 0, 0, 9, 2] :=
  c3_resync [1, 90, 2] [90, 90, 90, 90, 0, 0, 0, 9, 2] 0 (by decide)
    (by decide)

/-- C4 counterexample: flushing a builder holding one chunk leaves the
pending chunk sequence equal to that chunk list, not empty. -/
theorem c4_counterexample :
    (match writeFlush ⟨2, [[7]]⟩ with
     | .ok (st, _) => st.chunks
     | .error _ => []) = [[7]] ∧ ([[7]] : List (List Nat)) ≠ [] :=
  ⟨rfl, by decide⟩

/-- C4 (amended): for every builder state reachable by `_write_header`
followed by a sequence of chunk appends, `_write_flush` leaves the pending
chunk sequence unchanged; the builder is emptied by the next
`_write_header`, not by the flush. -/
theorem c4_flush_keeps_chunks (ty : Nat) (cs : List (List Nat))
    (h1 : ty < 256) (h3 : cs.flatten.length + 9 < 2 ^ 31) :
    (∃ w, writeFlush
        (cs.foldl (fun st c => writeChunk c st) (writeHeader ty ⟨0, []⟩)) =
      .ok (⟨ty, cs⟩, w)) ∧
    (writeHeader ty ⟨ty, cs⟩).chunks = [] := by
  constructor
  · rw [writeHeader, buildChunks]
    rw [List.nil_append]
    exact ⟨_, writeFlush_frame ty cs h1 h3⟩
  · rfl

theorem c4_flush_keeps_chunks_witness :
    (∃ w, writeFlush
        ([[7]].foldl (fun st c => writeChunk c st) (writeHeader 2 ⟨0, []⟩)) =
      .ok (⟨2, [[7]]⟩, w)) ∧
    (writeHeader 2 ⟨2, [[7]]⟩).chunks = [] :=
  c4_flush_keeps_chunks 2 [[7]] (by decide) (by decide)

/-- C7: the outcome of `_read_header`, by cases and in the order the code
checks them: a read-underrun error whenever `remaining_bytes` is positive
at entry (for any stream); otherwise, after the sync bytes, a
connection-closed error exactly when the length field is zero, an
unknown-type error for a type byte outside the `_D2HMsgType` range, a
malformed-header (header overrun) error exactly when the nonzero length is
below 9, and otherwise success with `remaining_bytes = length - 9`. -/
theorem c7_read_header_cases (rl : Int) (b0 b1 b2 b3 t : Nat)
    (rest s : List Nat) :
    (0 < rl → readHeader rl s = .error (.readUnderrun rl)) ∧
    (rl ≤ 0 → decodeI32 [b0, b1, b2, b3] = 0 →
      readHeader rl ([90, 90, 90, 90] ++ b0 :: b1 :: b2 :: b3 :: t :: rest) =
        .error .connectionClosed) ∧
    (rl ≤ 0 → decodeI32 [b0, b1, b2, b3] ≠ 0 → ¬(1 ≤ t ∧ t ≤ 15) →
      readHeader rl ([90, 90, 90, 90] ++ b0 :: b1 :: b2 :: b3 :: t :: rest) =
        .error (.unknownMsgType t)) ∧
    (rl ≤ 0 → decodeI32 [b0, b1, b2, b3] ≠ 0 → (1 ≤ t ∧ t ≤ 15) →
      decodeI32 [b0, b1, b2, b3] < 9 →
      readHeader rl ([90, 90, 90, 90] ++ b0 :: b1 :: b2 :: b3 :: t :: rest) =
        .error (.headerOverrun (decodeI32 [b0, b1, b2, b3]))) ∧
    (rl ≤ 0 → (1 ≤ t ∧ t ≤ 15) → 9 ≤ decodeI32 [b0, b1, b2, b3] →
      readHeader rl ([90, 90, 90, 90] ++ b0 :: b1 :: b2 :: b3 :: t :: rest) =
        .ok (t, decodeI32 [b0, b1, b2, b3] - 9, rest)) := by
  refine ⟨?_, ?_, ?_, ?_, ?_⟩
  · intro h
    rw [readHeader, if_pos h]
  · intro h hz
    rw [readHeader_steps rl h b0 b1 b2 b3 t rest, if_pos hz]
  · intro h hz ht
    rw [readHeader_steps rl h b0 b1 b2 b3 t rest, if_neg hz, if_neg ht]
  · intro h hz ht hlt
    rw [readHeader_steps rl h b0 b1 b2 b3 t rest, if_neg hz, if_pos ht,
      if_pos hlt]
  · intro h ht hge
    rw [readHeader_steps rl h b0 b1 b2 b3 t rest, if_neg (by omega),
      if_pos ht, if_neg (by omega)]

theorem c7_read_header_cases_witness :
    readHeader 5 [] = .error (.readUnderrun 5) ∧
    readHeader 0 ([90, 90, 90, 90] ++ 0 :: 0 :: 0 :: 9 :: 2 :: []) =
      .ok (2, decodeI32 [0, 0, 0, 9] - 9, []) ∧
    readHeader 0 ([90, 90, 90, 90] ++ 0 :: 0 :: 0 :: 0 :: 2 :: []) =
      .error .connectionClosed := by
  refine ⟨?_, ?_, ?_⟩
  · exact (c7_read_header_cases 5 0 0 0 0 0 [] []).1 (by decide)
  · exact (c7_read_header_cases 0 0 0 0 9 2 [] []).2.2.2.2 (by decide)
      (by decide) (by decide)
  · exact (c7_read_header_cases 0 0 0 0 0 2 [] []).2.1 (by decide)
      (by decide)

/-- C1 (code evaluation): the `r` branch of `_send_rpc_value` does not
advance the caller's tag stream past the sub-grammar.  First conjunct:
sending `range(0, 1, 1)` against the stream `r i n` leaves the caller's
stream at `[i, n]` — still at the start of the sub-grammar, not past it
(the final `tags = tags_copy` in the source rebinds a local name; the
shared bytearray only lost the leading `r`).  Second conjunct: inside a
tuple `(range(0, 1, 1), None)` against `t 2 r i n`, the `None` element is
therefore matched against the stale `i` tag and the call raises a
return-value type error, although the value fits the declared shape. -/
theorem c1_code_eval :
    sendRpcValue 9 [114, 105, 110] (.range 0 1 1) .none [] =
      .ok ([105, 110], [[0, 0, 0, 0], [0, 0, 0, 1], [0, 0, 0, 1]]) ∧
    sendRpcValue 9 [116, 2, 114, 105, 110]
        (.tuple [.range 0 1 1, .none]) (.tuple [.range 0 1 1, .none]) [] =
      .error (.rpcReturnValue .none .int32Ty []
        (.tuple [.range 0 1 1, .none])) :=
  ⟨rfl, rfl⟩

/-- C5 counterexample: `2^31 - 1` lies in the signed 32-bit range, yet
`_send_rpc_value` rejects it against tag `i`: the source checks the open
interval `-2^31 < v < 2^31 - 1`. -/
theorem c5_counterexample :
    sendRpcValue 1 [105] (.int 2147483647) .none [] =
      .error (.rpcReturnValue (.int 2147483647) .int32Ty [] .none) ∧
    (-(2 ^ 31) ≤ (2147483647 : Int) ∧ (2147483647 : Int) ≤ 2 ^ 31 - 1) :=
  ⟨rfl, by decide⟩

/-- C5 (amended): sending an integer `v` against tag `i` succeeds —
appending the four-byte big-endian encoding — exactly when
`-2^31 < v < 2^31 - 1` (one short of the signed 32-bit range at each
end); otherwise it fails with a return-value type error carrying the
offending value, the expected shape and the function identity. -/
theorem c5_int32_send (f : Nat) (v : Int) (root : Value) (fn : List Nat) :
    sendRpcValue (f + 1) [105] (.int v) root fn =
      (if -2 ^ 31 < v ∧ v < 2 ^ 31 - 1 then
        .ok ([], [encodeNat32 ((v % 2 ^ 32).toNat)])
       else .error (.rpcReturnValue (.int v) .int32Ty fn root)) := by
  have h0 : sendRpcValue (f + 1) [105] (.int v) root fn =
      (if -2 ^ 31 < v ∧ v < 2 ^ 31 - 1 then
        (packInt32 v).bind fun c =>
          (.ok ([], [c]) : Except Err (List Nat × List (List Nat)))
       else .error (.rpcReturnValue (.int v) .int32Ty fn root)) := rfl
  rw [h0]
  by_cases hv : -2 ^ 31 < v ∧ v < 2 ^ 31 - 1
  · rw [if_pos hv, if_pos hv, packInt32, if_pos (by omega)]
    rfl
  · rw [if_neg hv, if_neg hv]

theorem bindEqOk {α β ε : Type} (x : Except ε α) (g : α → Except ε β) (b : β)
    (h : x >>= g = .ok b) : ∃ a, x = .ok a ∧ g a = .ok b := by
  cases x with
  | error e => simp [Bind.bind, Except.bind] at h
  | ok a => exact ⟨a, rfl, by simpa [Bind.bind, Except.bind] using h⟩

/-- C8: when `_send_rpc_value` returns for a list value against a tag
stream `l · G`, the caller's tag-stream position equals the position a
single `_skip_rpc_value` applied to the original suffix `G` produces —
for every list, the empty one included (the skip pass runs
unconditionally after the per-element passes on copies). -/
theorem c8_list_skip (f : Nat) (G : List Nat) (v : Value) (root : Value)
    (fn : List Nat) (tags' : List Nat) (out : List (List Nat))
    (h : sendRpcValue (f + 1) (108 :: G) v root fn = .ok (tags', out)) :
    skipRpcValue f G = .ok tags' := by
  cases v with
  | list elts =>
      have h1 : sendRpcValue (f + 1) (108 :: G) (.list elts) root fn =
          (packInt32 (elts.length : Int) >>= fun lenC =>
            (elts.foldlM
              (fun acc e => do
                let (_, o) ← sendRpcValue f G e root fn
                .ok (acc ++ o)) [lenC] >>= fun outs =>
              skipRpcValue f G >>= fun tags2 =>
                (.ok (tags2, outs) :
                  Except Err (List Nat × List (List Nat))))) := rfl
      rw [h1] at h
      obtain ⟨lenC, _, h⟩ := bindEqOk _ _ _ h
      obtain ⟨outs, _, h⟩ := bindEqOk _ _ _ h
      obtain ⟨tags2, hskip, h⟩ := bindEqOk _ _ _ h
      simp only [Except.ok.injEq, Prod.mk.injEq] at h
      rw [← h.1]
      exact hskip
  | sentinel => exact Except.noConfusion h
  | none => exact Except.noConfusion h
  | bool b => exact Except.noConfusion h
  | int n => exact Except.noConfusion h
  | float b8 => exact Except.noConfusion h
  | fraction num den => exact Except.noConfusion h
  | str sb => exact Except.noConfusion h
  | tuple elts => exact Except.noConfusion h
  | range a b c => exact Except.noConfusion h
  | keyword n x => exact Except.noConfusion h

theorem c8_list_skip_witness :
    skipRpcValue 3 [105] = .ok [] :=
  c8_list_skip 3 [105] (.list [.int 5]) .none [] [] [[0, 0, 0, 1], [0, 0, 0, 5]]
    (by rfl)

theorem kwLookup_dictSet (m : List (List Nat × Value)) (n q : List Nat)
    (v : Value) :
    kwLookup (dictSet m n v) q = if q = n then some v else kwLookup m q := by
  induction m with
  | nil =>
      by_cases h : q = n
      · subst h
        simp [dictSet, kwLookup]
      · simp [dictSet, kwLookup, h, Ne.symm h]
  | cons p rest ih =>
      obtain ⟨k, x⟩ := p
      by_cases hk : k = n
      · subst hk
        rw [dictSet, if_pos rfl]
        by_cases hq : q = k
        · subst hq
          simp [kwLookup]
        · simp [kwLookup, hq, Ne.symm hq]
      · rw [dictSet, if_neg hk]
        by_cases hq : q = k
        · subst hq
          have hn : ¬ q = n := fun hh => hk hh
          simp [kwLookup, hn]
        · simp [kwLookup, Ne.symm hq, ih]

theorem kwLookup_collate (items : List Value) :
    ∀ (m : List (List Nat × Value)) (q : List Nat),
      kwLookup (items.foldl collateStep m) q =
        (match lastKw items q with
         | some x => some x
         | Option.none => kwLookup m q) := by
  induction items with
  | nil => intro m q; simp [lastKw]
  | cons v rest ih =>
      intro m q
      rw [List.foldl_cons, ih (collateStep m v) q]
      cases hrest : lastKw rest q with
      | some x => simp [lastKw, hrest]
      | none =>
          cases v with
          | keyword n x =>
              simp only [lastKw, hrest, collateStep]
              rw [kwLookup_dictSet]
              by_cases hq : q = n
              · subst hq
                simp
              · simp [hq, Ne.symm hq]
          | sentinel => simp [lastKw, hrest, collateStep]
          | none => simp [lastKw, hrest, collateStep]
          | bool b => simp [lastKw, hrest, collateStep]
          | int k => simp [lastKw, hrest, collateStep]
          | float b8 => simp [lastKw, hrest, collateStep]
          | fraction a b => simp [lastKw, hrest, collateStep]
          | str sb => simp [lastKw, hrest, collateStep]
          | tuple es => simp [lastKw, hrest, collateStep]
          | list es => simp [lastKw, hrest, collateStep]
          | range a b c => simp [lastKw, hrest, collateStep]

theorem okBind {α β ε : Type} (a : α) (g : α → Except ε β) :
    (Except.ok a : Except ε α) >>= g = g a := rfl

theorem receiveArgsLoop_spec (emap : Int → Option Value) :
    ∀ (f : Nat) (st : RSt) (items : List Value) (st' : RSt),
      receiveSeq emap f st = .ok (items, st') →
      ∀ (args : List Value) (kw : List (List Nat × Value)),
        receiveArgsLoop emap f args kw st =
          .ok (args ++ positionals items, items.foldl collateStep kw, st') := by
  intro f
  induction f with
  | zero =>
      intro st items st' h
      exact Except.noConfusion h
  | succ f ih =>
      intro st items st' h args kw
      have hseq : (do
          let (v, st1) ← receiveRpcValue emap f st
          match v with
          | .sentinel => (.ok ([], st1) : Except Err (List Value × RSt))
          | v => do
              let (vs, st2) ← receiveSeq emap f st1
              .ok (v :: vs, st2)) = .ok (items, st') := h
      obtain ⟨p, hp, hbody⟩ := bindEqOk _ _ _ hseq
      obtain ⟨v, st1⟩ := p
      have h0 : receiveArgsLoop emap (f + 1) args kw st =
          (do
            let (v, st1) ← receiveRpcValue emap f st
            match v with
            | .sentinel => (.ok (args, kw, st1) :
                Except Err (List Value × List (List Nat × Value) × RSt))
            | .keyword n x => receiveArgsLoop emap f args (dictSet kw n x) st1
            | v => receiveArgsLoop emap f (args ++ [v]) kw st1) := rfl
      rw [hp] at h0
      cases v with
      | sentinel =>
          have h3 : (.ok ([], st1) : Except Err (List Value × RSt)) =
              .ok (items, st') := hbody
          simp only [Except.ok.injEq, Prod.mk.injEq] at h3
          obtain ⟨hi, hs⟩ := h3
          subst hi
          subst hs
          have hstep : receiveArgsLoop emap (f + 1) args kw st =
              .ok (args, kw, st1) := h0.trans rfl
          rw [hstep]
          simp [positionals]
      | keyword n y =>
          have h4 : (receiveSeq emap f st1 >>= fun q =>
              (match q with
               | (vs, st2) => (.ok (Value.keyword n y :: vs, st2) :
                   Except Err (List Value × RSt)))) = .ok (items, st') := hbody
          obtain ⟨q, hq, h2⟩ := bindEqOk _ _ _ h4
          obtain ⟨vs, st2⟩ := q
          have h3 : (.ok (Value.keyword n y :: vs, st2) :
              Except Err (List Value × RSt)) = .ok (items, st') := h2
          simp only [Except.ok.injEq, Prod.mk.injEq] at h3
          obtain ⟨hi, hs⟩ := h3
          subst hi
          subst hs
          have hstep : receiveArgsLoop emap (f + 1) args kw st =
              receiveArgsLoop emap f args (dictSet kw n y) st1 := h0.trans rfl
          rw [hstep, ih st1 vs st2 hq args (dictSet kw n y)]
          simp [positionals, isKw, collateStep]
      | none =>
          have h4 : (receiveSeq emap f st1 >>= fun q =>
              (match q with
               | (vs, st2) => (.ok (Value.none :: vs, st2) :
                   Except Err (List Value × RSt)))) = .ok (items, st') := hbody
          obtain ⟨q, hq, h2⟩ := bindEqOk _ _ _ h4
          obtain ⟨vs, st2⟩ := q
          have h3 : (.ok (Value.none :: vs, st2) :
              Except Err (List Value × RSt)) = .ok (items, st') := h2
          simp only [Except.ok.injEq, Prod.mk.injEq] at h3
          obtain ⟨hi, hs⟩ := h3
          subst hi
          subst hs
          have hstep : receiveArgsLoop emap (f + 1) args kw st =
              receiveArgsLoop emap f (args ++ [Value.none]) kw st1 := h0.trans rfl
          rw [hstep, ih st1 vs st2 hq (args ++ [Value.none]) kw]
          simp [positionals, isKw, collateStep]
      | bool b =>
          have h4 : (receiveSeq emap f st1 >>= fun q =>
              (match q with
               | (vs, st2) => (.ok (Value.bool b :: vs, st2) :
                   Except Err (List Value × RSt)))) = .ok (items, st') := hbody
          obtain ⟨q, hq, h2⟩ := bindEqOk _ _ _ h4
          obtain ⟨vs, st2⟩ := q
          have h3 : (.ok (Value.bool b :: vs, st2) :
              Except Err (List Value × RSt)) = .ok (items, st') := h2
          simp only [Except.ok.injEq, Prod.mk.injEq] at h3
          obtain ⟨hi, hs⟩ := h3
          subst hi
          subst hs
          have hstep : receiveArgsLoop emap (f + 1) args kw st =
              receiveArgsLoop emap f (args ++ [Value.bool b]) kw st1 := h0.trans rfl
          rw [hstep, ih st1 vs st2 hq (args ++ [Value.bool b]) kw]
          simp [positionals, isKw, collateStep]
      | int k =>
          have h4 : (receiveSeq emap f st1 >>= fun q =>
              (match q with
               | (vs, st2) => (.ok (Value.int k :: vs, st2) :
                   Except Err (List Value × RSt)))) = .ok (items, st') := hbody
          obtain ⟨q, hq, h2⟩ := bindEqOk _ _ _ h4
          obtain ⟨vs, st2⟩ := q
          have h3 : (.ok (Value.int k :: vs, st2) :
              Except Err (List Value × RSt)) = .ok (items, st') := h2
          simp only [Except.ok.injEq, Prod.mk.injEq] at h3
          obtain ⟨hi, hs⟩ := h3
          subst hi
          subst hs
          have hstep : receiveArgsLoop emap (f + 1) args kw st =
              receiveArgsLoop emap f (args ++ [Value.int k]) kw st1 := h0.trans rfl
          rw [hstep, ih st1 vs st2 hq (args ++ [Value.int k]) kw]
          simp [positionals, isKw, collateStep]
      | float b8 =>
          have h4 : (receiveSeq emap f st1 >>= fun q =>
              (match q with
               | (vs, st2) => (.ok (Value.float b8 :: vs, st2) :
                   Except Err (List Value × RSt)))) = .ok (items, st') := hbody
          obtain ⟨q, hq, h2⟩ := bindEqOk _ _ _ h4
          obtain ⟨vs, st2⟩ := q
          have h3 : (.ok (Value.float b8 :: vs, st2) :
              Except Err (List Value × RSt)) = .ok (items, st') := h2
          simp only [Except.ok.injEq, Prod.mk.injEq] at h3
          obtain ⟨hi, hs⟩ := h3
          subst hi
          subst hs
          have hstep : receiveArgsLoop emap (f + 1) args kw st =
              receiveArgsLoop emap f (args ++ [Value.float b8]) kw st1 := h0.trans rfl
          rw [hstep, ih st1 vs st2 hq (args ++ [Value.float b8]) kw]
          simp [positionals, isKw, collateStep]
      | fraction a b =>
          have h4 : (receiveSeq emap f st1 >>= fun q =>
              (match q with
               | (vs, st2) => (.ok (Value.fraction a b :: vs, st2) :
                   Except Err (List Value × RSt)))) = .ok (items, st') := hbody
          obtain ⟨q, hq, h2⟩ := bindEqOk _ _ _ h4
          obtain ⟨vs, st2⟩ := q
          have h3 : (.ok (Value.fraction a b :: vs, st2) :
              Except Err (List Value × RSt)) = .ok (items, st') := h2
          simp only [Except.ok.injEq, Prod.mk.injEq] at h3
          obtain ⟨hi, hs⟩ := h3
          subst hi
          subst hs
          have hstep : receiveArgsLoop emap (f + 1) args kw st =
              receiveArgsLoop emap f (args ++ [Value.fraction a b]) kw st1 := h0.trans rfl
          rw [hstep, ih st1 vs st2 hq (args ++ [Value.fraction a b]) kw]
          simp [positionals, isKw, collateStep]
      | str sb =>
          have h4 : (receiveSeq emap f st1 >>= fun q =>
              (match q with
               | (vs, st2) => (.ok (Value.str sb :: vs, st2) :
                   Except Err (List Value × RSt)))) = .ok (items, st') := hbody
          obtain ⟨q, hq, h2⟩ := bindEqOk _ _ _ h4
          obtain ⟨vs, st2⟩ := q
          have h3 : (.ok (Value.str sb :: vs, st2) :
              Except Err (List Value × RSt)) = .ok (items, st') := h2
          simp only [Except.ok.injEq, Prod.mk.injEq] at h3
          obtain ⟨hi, hs⟩ := h3
          subst hi
          subst hs
          have hstep : receiveArgsLoop emap (f + 1) args kw st =
              receiveArgsLoop emap f (args ++ [Value.str sb]) kw st1 := h0.trans rfl
          rw [hstep, ih st1 vs st2 hq (args ++ [Value.str sb]) kw]
          simp [positionals, isKw, collateStep]
      | tuple es =>
          have h4 : (receiveSeq emap f st1 >>= fun q =>
              (match q with
               | (vs, st2) => (.ok (Value.tuple es :: vs, st2) :
                   Except Err (List Value × RSt)))) = .ok (items, st') := hbody
          obtain ⟨q, hq, h2⟩ := bindEqOk _ _ _ h4
          obtain ⟨vs, st2⟩ := q
          have h3 : (.ok (Value.tuple es :: vs, st2) :
              Except Err (List Value × RSt)) = .ok (items, st') := h2
          simp only [Except.ok.injEq, Prod.mk.injEq] at h3
          obtain ⟨hi, hs⟩ := h3
          subst hi
          subst hs
          have hstep : receiveArgsLoop emap (f + 1) args kw st =
              receiveArgsLoop emap f (args ++ [Value.tuple es]) kw st1 := h0.trans rfl
          rw [hstep, ih st1 vs st2 hq (args ++ [Value.tuple es]) kw]
          simp [positionals, isKw, collateStep]
      | list es =>
          have h4 : (receiveSeq emap f st1 >>= fun q =>
              (match q with
               | (vs, st2) => (.ok (Value.list es :: vs, st2) :
                   Except Err (List Value × RSt)))) = .ok (items, st') := hbody
          obtain ⟨q, hq, h2⟩ := bindEqOk _ _ _ h4
          obtain ⟨vs, st2⟩ := q
          have h3 : (.ok (Value.list es :: vs, st2) :
              Except Err (List Value × RSt)) = .ok (items, st') := h2
          simp only [Except.ok.injEq, Prod.mk.injEq] at h3
          obtain ⟨hi, hs⟩ := h3
          subst hi
          subst hs
          have hstep : receiveArgsLoop emap (f + 1) args kw st =
              receiveArgsLoop emap f (args ++ [Value.list es]) kw st1 := h0.trans rfl
          rw [hstep, ih st1 vs st2 hq (args ++ [Value.list es]) kw]
          simp [positionals, isKw, collateStep]
      | range a b c =>
          have h4 : (receiveSeq emap f st1 >>= fun q =>
              (match q with
               | (vs, st2) => (.ok (Value.range a b c :: vs, st2) :
                   Except Err (List Value × RSt)))) = .ok (items, st') := hbody
          obtain ⟨q, hq, h2⟩ := bindEqOk _ _ _ h4
          obtain ⟨vs, st2⟩ := q
          have h3 : (.ok (Value.range a b c :: vs, st2) :
              Except Err (List Value × RSt)) = .ok (items, st') := h2
          simp only [Except.ok.injEq, Prod.mk.injEq] at h3
          obtain ⟨hi, hs⟩ := h3
          subst hi
          subst hs
          have hstep : receiveArgsLoop emap (f + 1) args kw st =
              receiveArgsLoop emap f (args ++ [Value.range a b c]) kw st1 := h0.trans rfl
          rw [hstep, ih st1 vs st2 hq (args ++ [Value.range a b c]) kw]
          simp [positionals, isKw, collateStep]

/-- C9: for every inbound argument sequence (the values that iterated
`_receive_rpc_value` yields up to the `\x00` sentinel), `_receive_rpc_args`
returns exactly the positional values in emission order together with the
keyword dictionary folded left-to-right, and looking any name up in that
dictionary yields the value of the last `k`-tagged occurrence of that
name. -/
theorem c9_receive_args (emap : Int → Option Value) (f : Nat) (st st' : RSt)
    (items : List Value)
    (h : receiveSeq emap f st = .ok (items, st')) :
    receiveRpcArgs emap f st =
      .ok (positionals items, items.foldl collateStep [], st') ∧
    ∀ name, kwLookup (items.foldl collateStep []) name = lastKw items name := by
  constructor
  · have hmain := receiveArgsLoop_spec emap f st items st' h [] []
    rw [receiveRpcArgs, hmain]
    simp
  · intro name
    rw [kwLookup_collate items [] name]
    cases hl : lastKw items name <;> simp [kwLookup]

theorem c9_receive_args_witness :
    receiveRpcArgs (fun _ => Option.none) 10
        ⟨30, [105, 0, 0, 0, 1,
              107, 0, 0, 0, 2, 97, 0, 105, 0, 0, 0, 2,
              107, 0, 0, 0, 2, 97, 0, 105, 0, 0, 0, 3,
              0]⟩ =
      .ok ([.int 1], [([97], .int 3)], ⟨0, []⟩) ∧
    kwLookup ([Value.int 1, .keyword [97] (.int 2),
        .keyword [97] (.int 3)].foldl collateStep []) [97] =
      some (.int 3) := by
  have h : receiveSeq (fun _ => Option.none) 10
      ⟨30, [105, 0, 0, 0, 1,
            107, 0, 0, 0, 2, 97, 0, 105, 0, 0, 0, 2,
            107, 0, 0, 0, 2, 97, 0, 105, 0, 0, 0, 3,
            0]⟩ =
      .ok ([Value.int 1, .keyword [97] (.int 2), .keyword [97] (.int 3)],
        ⟨0, []⟩) := rfl
  have hc := c9_receive_args (fun _ => Option.none) 10 _ _ _ h
  exact ⟨hc.1, hc.2 [97]⟩

/-- C6 counterexample: on the identity reply of the spec's own scenario
(type 2, body `AROR` followed by `1.0`), `check_ident` succeeds but its
Python return value is `None` — the decoded gateware version `1.0`
(bytes `[49, 46, 48]`) is not returned to the caller, only compared for
the warning. -/
theorem c6_counterexample :
    (match checkIdent [49, 46, 48] 0
        [90, 90, 90, 90, 0, 0, 0, 16, 2, 65, 82, 79, 82, 49, 46, 48] with
     | .ok (_, v, _) => v
     | .error _ => some []) = Option.none ∧
    (Option.none : Option (List Nat)) ≠ some [49, 46, 48] :=
  ⟨rfl, by decide⟩

theorem readChunk_exact (p r : List Nat) (rlen : Int)
    (h : (p.length : Int) ≤ rlen) :
    readChunk (p.length : Int) rlen (p ++ r) =
      .ok (p, rlen - p.length, r) := by
  rw [readChunk, if_neg (by omega)]
  have ht : ((p.length : Int)).toNat = p.length := by omega
  rw [ht, readExact_append]

/-- C6 (amended): when the `IDENT_REPLY` body begins with the 4-byte magic
`AROR`, `check_ident` succeeds, decodes the gateware version from the
remaining body bytes only to drive the software-version mismatch warning
(tolerating a `.dirty` suffix), and returns `None` — not the version
string; when the first 4 body bytes differ from `AROR`, it fails with an
unsupported-device error carrying them. -/
theorem c6_check_ident (sw gv m4 tail : List Nat)
    (hm : m4.length = 4) (hne : m4 ≠ [65, 82, 79, 82])
    (hlen : gv.length + 13 < 2 ^ 31)
    (hlen2 : tail.length + 13 < 2 ^ 31) :
    (∃ req w,
      checkIdent sw 0 ([90, 90, 90, 90] ++
          encodeNat32 (9 + ([65, 82, 79, 82] ++ gv).length) ++
          2 :: ([65, 82, 79, 82] ++ gv)) = .ok (req, Option.none, w) ∧
      (w = true ↔ (gv ≠ sw ∧ gv ++ [46, 100, 105, 114, 116, 121] ≠ sw))) ∧
    checkIdent sw 0 ([90, 90, 90, 90] ++
        encodeNat32 (9 + (m4 ++ tail).length) ++ 2 :: (m4 ++ tail)) =
      .error (.unsupportedDevice m4) := by
  have hreq : writeFlush (⟨3, []⟩ : WriteSt) =
      .ok (⟨3, []⟩, [90, 90, 90, 90, 0, 0, 0, 9, 3]) := rfl
  constructor
  · have hhdr := readHeader_frame 2 ([65, 82, 79, 82] ++ gv) (by omega)
      (by omega)
      (by simp only [List.length_append, List.length_cons, List.length_nil]
          omega)
    have hcond : ¬ ((([65, 82, 79, 82] ++ gv).length : Nat) : Int) < 4 := by
      simp only [List.length_append, List.length_cons, List.length_nil]
      push_cast
      omega
    have harith : ((([65, 82, 79, 82] ++ gv).length : Nat) : Int) - 4 =
        (gv.length : Int) := by
      simp only [List.length_append, List.length_cons, List.length_nil]
      push_cast
      omega
    have h4 : readExact 4 ([65, 82, 79, 82] ++ gv) =
        .ok ([65, 82, 79, 82], gv) := readExact_append [65, 82, 79, 82] gv
    have hc1 : readChunk 4 ((([65, 82, 79, 82] ++ gv).length : Nat) : Int)
        ([65, 82, 79, 82] ++ gv) =
        .ok ([65, 82, 79, 82], (gv.length : Int), gv) := by
      rw [readChunk, if_neg hcond]
      rw [show (4 : Int).toNat = 4 from rfl]
      simp only [h4]
      rw [harith]
    have hc2 : readChunk ((gv.length : Nat) : Int) ((gv.length : Nat) : Int)
        gv = .ok (gv, 0, []) := by
      have h := readChunk_exact gv [] ((gv.length : Nat) : Int) (by omega)
      rw [List.append_nil] at h
      rw [h]
      simp
    refine ⟨[90, 90, 90, 90, 0, 0, 0, 9, 3],
      !(gv == sw) && !((gv ++ [46, 100, 105, 114, 116, 121]) == sw), ?_, ?_⟩
    · simp only [checkIdent, hreq, okBind, hhdr, hc1, hc2]
      simp
    · simp [Bool.and_eq_true, Bool.not_eq_true', beq_iff_eq]
  · have hhdr := readHeader_frame 2 (m4 ++ tail) (by omega) (by omega)
      (by simp only [List.length_append, hm]; omega)
    have hcond : ¬ (((m4 ++ tail).length : Nat) : Int) < 4 := by
      simp only [List.length_append, hm]
      push_cast
      omega
    have h4 : readExact 4 (m4 ++ tail) = .ok (m4, tail) := by
      have h := readExact_append m4 tail
      rwa [hm] at h
    have hc1 : readChunk 4 (((m4 ++ tail).length : Nat) : Int) (m4 ++ tail) =
        .ok (m4, ((m4 ++ tail).length : Int) - 4, tail) := by
      rw [readChunk, if_neg hcond]
      rw [show (4 : Int).toNat = 4 from rfl]
      simp only [h4]
    simp only [checkIdent, hreq, okBind, hhdr, hc1]
    simp [hne]

theorem c6_check_ident_witness :
    (∃ req w,
      checkIdent [49, 46, 48] 0 ([90, 90, 90, 90] ++
          encodeNat32 (9 + ([65, 82, 79, 82] ++ [49, 46, 48]).length) ++
          2 :: ([65, 82, 79, 82] ++ [49, 46, 48])) =
        .ok (req, Option.none, w) ∧
      (w = true ↔ ([49, 46, 48] ≠ [49, 46, 48] ∧
        [49, 46, 48] ++ [46, 100, 105, 114, 116, 121] ≠ [49, 46, 48]))) ∧
    checkIdent [49, 46, 48] 0 ([90, 90, 90, 90] ++
        encodeNat32 (9 + ([66, 66, 66, 66] ++ ([] : List Nat)).length) ++
        2 :: ([66, 66, 66, 66] ++ ([] : List Nat))) =
      .error (.unsupportedDevice [66, 66, 66, 66]) :=
  c6_check_ident [49, 46, 48] [49, 46, 48] [66, 66, 66, 66] []
    (by decide) (by decide) (by decide) (by decide)

theorem writeFlush8_shape (cs : List (List Nat)) (st : WriteSt)
    (w : List Nat) (h : writeFlush ⟨8, cs⟩ = .ok (st, w)) :
    w = [90, 90, 90, 90] ++ encodeNat32 (9 + cs.flatten.length) ++
      8 :: cs.flatten := by
  by_cases h2 : cs.flatten.length + 9 < 2 ^ 31
  · have hfr := writeFlush_frame 8 cs (by omega) h2
    rw [hfr] at h
    simp only [Except.ok.injEq, Prod.mk.injEq] at h
    exact h.2.symm
  · exfalso
    have hsum : (cs.map List.length).sum = cs.flatten.length :=
      (List.length_flatten cs).symm
    have hpe : packInt32 (9 + ((cs.map List.length).sum : Nat) : Int) =
        .error .structError := by
      rw [packInt32, if_neg]
      intro hc
      omega
    have hwf : writeFlush ⟨8, cs⟩ = .error .structError := by
      simp only [writeFlush, hpe]
      rfl
    rw [hwf] at h
    exact Except.noConfusion h

theorem serveRpcErrPath (emap : Int → Option Value)
    (svcMap : Int → Option Service) (setattrSvc : Service)
    (svcRepr : Int → List Nat) (rpcErrToExn : Err → ExnInfo)
    (fuel : Nat) (rlen : Int) (s : List Nat)
    (sid : Int) (args : List Value) (kw : List (List Nat × Value))
    (rtags : List Nat) (rlen' : Int) (s' : List Nat)
    (hparse : parseRpcRequest emap fuel rlen s =
      .ok (sid, args, kw, rtags, rlen', s'))
    (svc : Service)
    (hsvc : resolveService svcMap setattrSvc sid = .ok svc)
    (e : ExnInfo) (he : svc args kw = .error e) :
    serveRpc emap svcMap setattrSvc svcRepr rpcErrToExn fuel rlen s =
      serveRpcExc e rlen' s' := by
  have h0 : serveRpc emap svcMap setattrSvc svcRepr rpcErrToExn fuel rlen s =
      (do
          let (sid0, args0, kw0, rtags0, rlen0, s0) ←
            parseRpcRequest emap fuel rlen s
          let svc0 ← resolveService svcMap setattrSvc sid0
          match svc0 args0 kw0 with
          | .ok result =>
              if sid0 = 0 then .ok (rlen0, s0, [])
              else
                match (do
                  let lenC ← packInt32 ((rtags0.length : Int))
                  let (_, outs) ← sendRpcValue fuel rtags0 result result
                    (svcRepr sid0)
                  writeFlush ⟨7, [lenC, rtags0] ++ outs⟩ :
                    Except Err (WriteSt × List Nat)) with
                | .ok (_, w0) => .ok (rlen0, s0, w0)
                | .error er => serveRpcExc (rpcErrToExn er) rlen0 s0
          | .error e0 => serveRpcExc e0 rlen0 s0) := rfl
  rw [hparse] at h0
  have h1 : serveRpc emap svcMap setattrSvc svcRepr rpcErrToExn fuel rlen s =
      (resolveService svcMap setattrSvc sid >>= fun svc0 =>
        match svc0 args kw with
        | .ok result =>
            if sid = 0 then .ok (rlen', s', [])
            else
              match (do
                let lenC ← packInt32 ((rtags.length : Int))
                let (_, outs) ← sendRpcValue fuel rtags result result
                  (svcRepr sid)
                writeFlush ⟨7, [lenC, rtags] ++ outs⟩ :
                  Except Err (WriteSt × List Nat)) with
              | .ok (_, w0) => .ok (rlen', s', w0)
              | .error er => serveRpcExc (rpcErrToExn er) rlen' s'
        | .error e0 => serveRpcExc e0 rlen' s') := h0.trans rfl
  rw [hsvc] at h1
  have h2 : serveRpc emap svcMap setattrSvc svcRepr rpcErrToExn fuel rlen s =
      (match svc args kw with
        | .ok result =>
            if sid = 0 then .ok (rlen', s', [])
            else
              match (do
                let lenC ← packInt32 ((rtags.length : Int))
                let (_, outs) ← sendRpcValue fuel rtags result result
                  (svcRepr sid)
                writeFlush ⟨7, [lenC, rtags] ++ outs⟩ :
                  Except Err (WriteSt × List Nat)) with
              | .ok (_, w0) => .ok (rlen', s', w0)
              | .error er => serveRpcExc (rpcErrToExn er) rlen' s'
        | .error e0 => serveRpcExc e0 rlen' s') := h1.trans rfl
  rw [he] at h2
  exact h2.trans rfl

theorem serveRpcOkZero (emap : Int → Option Value)
    (svcMap : Int → Option Service) (setattrSvc : Service)
    (svcRepr : Int → List Nat) (rpcErrToExn : Err → ExnInfo)
    (fuel : Nat) (rlen : Int) (s : List Nat)
    (sid : Int) (args : List Value) (kw : List (List Nat × Value))
    (rtags : List Nat) (rlen' : Int) (s' : List Nat)
    (hparse : parseRpcRequest emap fuel rlen s =
      .ok (sid, args, kw, rtags, rlen', s'))
    (svc : Service)
    (hsvc : resolveService svcMap setattrSvc sid = .ok svc)
    (r : Value) (hr : svc args kw = .ok r) (hz : sid = 0) :
    serveRpc emap svcMap setattrSvc svcRepr rpcErrToExn fuel rlen s =
      .ok (rlen', s', []) := by
  have h0 : serveRpc emap svcMap setattrSvc svcRepr rpcErrToExn fuel rlen s =
      (do
          let (sid0, args0, kw0, rtags0, rlen0, s0) ←
            parseRpcRequest emap fuel rlen s
          let svc0 ← resolveService svcMap setattrSvc sid0
          match svc0 args0 kw0 with
          | .ok result =>
              if sid0 = 0 then .ok (rlen0, s0, [])
              else
                match (do
                  let lenC ← packInt32 ((rtags0.length : Int))
                  let (_, outs) ← sendRpcValue fuel rtags0 result result
                    (svcRepr sid0)
                  writeFlush ⟨7, [lenC, rtags0] ++ outs⟩ :
                    Except Err (WriteSt × List Nat)) with
                | .ok (_, w0) => .ok (rlen0, s0, w0)
                | .error er => serveRpcExc (rpcErrToExn er) rlen0 s0
          | .error e0 => serveRpcExc e0 rlen0 s0) := rfl
  rw [hparse] at h0
  have h1 : serveRpc emap svcMap setattrSvc svcRepr rpcErrToExn fuel rlen s =
      (resolveService svcMap setattrSvc sid >>= fun svc0 =>
        match svc0 args kw with
        | .ok result =>
            if sid = 0 then .ok (rlen', s', [])
            else
              match (do
                let lenC ← packInt32 ((rtags.length : Int))
                let (_, outs) ← sendRpcValue fuel rtags result result
                  (svcRepr sid)
                writeFlush ⟨7, [lenC, rtags] ++ outs⟩ :
                  Except Err (WriteSt × List Nat)) with
              | .ok (_, w0) => .ok (rlen', s', w0)
              | .error er => serveRpcExc (rpcErrToExn er) rlen' s'
        | .error e0 => serveRpcExc e0 rlen' s') := h0.trans rfl
  rw [hsvc] at h1
  have h2 : serveRpc emap svcMap setattrSvc svcRepr rpcErrToExn fuel rlen s =
      (match svc args kw with
        | .ok result =>
            if sid = 0 then .ok (rlen', s', [])
            else
              match (do
                let lenC ← packInt32 ((rtags.length : Int))
                let (_, outs) ← sendRpcValue fuel rtags result result
                  (svcRepr sid)
                writeFlush ⟨7, [lenC, rtags] ++ outs⟩ :
                  Except Err (WriteSt × List Nat)) with
              | .ok (_, w0) => .ok (rlen', s', w0)
              | .error er => serveRpcExc (rpcErrToExn er) rlen' s'
        | .error e0 => serveRpcExc e0 rlen' s') := h1.trans rfl
  rw [hr, hz] at h2
  exact h2.trans rfl

theorem serveRpcExcEq (e : ExnInfo) (rlen : Int) (s : List Nat) :
    serveRpcExc e rlen s =
      (mkExceptionChunks e >>= fun cs0 =>
        writeFlush ⟨8, cs0⟩ >>= fun p =>
          match p with
          | (_, w0) => (.ok (rlen, s, w0) :
              Except Err (Int × List Nat × List Nat))) := rfl

theorem serveRpcExcOk (e : ExnInfo) (cs : List (List Nat)) (st : WriteSt)
    (w : List Nat) (rlen : Int) (s : List Nat)
    (hm : mkExceptionChunks e = .ok cs)
    (hf : writeFlush ⟨8, cs⟩ = .ok (st, w)) :
    serveRpcExc e rlen s = .ok (rlen, s, w) := by
  rw [serveRpcExcEq e rlen s, hm, okBind, hf, okBind]

/-- C10: when the resolved service raises, `_serve_rpc` writes exactly one
flushed `RPC_EXCEPTION` (type 8) message — for every service identifier,
the setattr builtin `0` included; the no-reply behaviour of service 0
applies only on success, where no bytes at all are written. -/
theorem c10_serve_rpc (emap : Int → Option Value)
    (svcMap : Int → Option Service) (setattrSvc : Service)
    (svcRepr : Int → List Nat) (rpcErrToExn : Err → ExnInfo)
    (fuel : Nat) (rlen : Int) (s : List Nat)
    (sid : Int) (args : List Value) (kw : List (List Nat × Value))
    (rtags : List Nat) (rlen' : Int) (s' : List Nat)
    (hparse : parseRpcRequest emap fuel rlen s =
      .ok (sid, args, kw, rtags, rlen', s'))
    (svc : Service)
    (hsvc : resolveService svcMap setattrSvc sid = .ok svc) :
    (∀ e cs st w, svc args kw = .error e →
      mkExceptionChunks e = .ok cs →
      writeFlush ⟨8, cs⟩ = .ok (st, w) →
      serveRpc emap svcMap setattrSvc svcRepr rpcErrToExn fuel rlen s =
        .ok (rlen', s', w) ∧
      w = [90, 90, 90, 90] ++ encodeNat32 (9 + cs.flatten.length) ++
        8 :: cs.flatten) ∧
    (∀ r, svc args kw = .ok r → sid = 0 →
      serveRpc emap svcMap setattrSvc svcRepr rpcErrToExn fuel rlen s =
        .ok (rlen', s', [])) := by
  constructor
  · intro e cs st w he hm hf
    refine ⟨?_, writeFlush8_shape cs st w hf⟩
    exact (serveRpcErrPath emap svcMap setattrSvc svcRepr rpcErrToExn fuel
      rlen s sid args kw rtags rlen' s' hparse svc hsvc e he).trans
      (serveRpcExcOk e cs st w rlen' s' hm hf)
  · intro r hr hz
    exact serveRpcOkZero emap svcMap setattrSvc svcRepr rpcErrToExn fuel
      rlen s sid args kw rtags rlen' s' hparse svc hsvc r hr hz

theorem c10_serve_rpc_witness :
    serveRpc (fun _ => Option.none) (fun _ => Option.none)
        (fun _ _ => .error ⟨Option.none, true, [69], [], [], 0, [98], [⟨[102], 3, 7, [103]⟩]⟩)
        (fun _ => []) (fun _ => ⟨Option.none, true, [69], [], [], 0, [98], [⟨[102], 3, 7, [103]⟩]⟩)
        5 9 [0, 0, 0, 0, 0, 0, 0, 0, 0] =
      .ok (0, [], [90, 90, 90, 90, 0, 0, 0, 67, 8, 0, 0, 0, 4, 48, 58, 69, 0, 0, 0, 0, 2, 98, 0, 0, 0, 0, 0, 0, 0, 0, 0, 0, 0, 0, 0, 0, 0, 0, 0, 0, 0, 0, 0, 0, 0, 0, 0, 0, 0, 0, 2, 102, 0, 0, 0, 0, 3, 255, 255, 255, 255, 0, 0, 0, 2, 103, 0]) ∧
    serveRpc (fun _ => Option.none) (fun _ => Option.none)
        (fun _ _ => .ok .none)
        (fun _ => []) (fun _ => ⟨Option.none, true, [69], [], [], 0, [98], [⟨[102], 3, 7, [103]⟩]⟩)
        5 9 [0, 0, 0, 0, 0, 0, 0, 0, 0] = .ok (0, [], []) := by
  constructor
  · exact ((c10_serve_rpc (fun _ => Option.none) (fun _ => Option.none)
      (fun _ _ => .error ⟨Option.none, true, [69], [], [], 0, [98], [⟨[102], 3, 7, [103]⟩]⟩)
      (fun _ => []) (fun _ => ⟨Option.none, true, [69], [], [], 0, [98], [⟨[102], 3, 7, [103]⟩]⟩)
      5 9 [0, 0, 0, 0, 0, 0, 0, 0, 0] 0 [] [] [] 0 [] (by rfl)
      (fun _ _ => .error ⟨Option.none, true, [69], [], [], 0, [98], [⟨[102], 3, 7, [103]⟩]⟩) (by rfl)).1
      ⟨Option.none, true, [69], [], [], 0, [98], [⟨[102], 3, 7, [103]⟩]⟩
      [[0, 0, 0, 4], [48, 58, 69, 0], [0, 0, 0, 2], [98, 0], [0, 0, 0, 0, 0, 0, 0, 0], [0, 0, 0, 0, 0, 0, 0, 0], [0, 0, 0, 0, 0, 0, 0, 0], [0, 0, 0, 2], [102, 0], [0, 0, 0, 3], [255, 255, 255, 255], [0, 0, 0, 2], [103, 0]]
      ⟨8, [[0, 0, 0, 4], [48, 58, 69, 0], [0, 0, 0, 2], [98, 0], [0, 0, 0, 0, 0, 0, 0, 0], [0, 0, 0, 0, 0, 0, 0, 0], [0, 0, 0, 0, 0, 0, 0, 0], [0, 0, 0, 2], [102, 0], [0, 0, 0, 3], [255, 255, 255, 255], [0, 0, 0, 2], [103, 0]]⟩
      [90, 90, 90, 90, 0, 0, 0, 67, 8, 0, 0, 0, 4, 48, 58, 69, 0, 0, 0, 0, 2, 98, 0, 0, 0, 0, 0, 0, 0, 0, 0, 0, 0, 0, 0, 0, 0, 0, 0, 0, 0, 0, 0, 0, 0, 0, 0, 0, 0, 0, 2, 102, 0, 0, 0, 0, 3, 255, 255, 255, 255, 0, 0, 0, 2, 103, 0] (by rfl) (by rfl) (by rfl)).1
  · exact (c10_serve_rpc (fun _ => Option.none) (fun _ => Option.none)
      (fun _ _ => .ok .none)
      (fun _ => []) (fun _ => ⟨Option.none, true, [69], [], [], 0, [98], [⟨[102], 3, 7, [103]⟩]⟩)
      5 9 [0, 0, 0, 0, 0, 0, 0, 0, 0] 0 [] [] [] 0 [] (by rfl)
      (fun _ _ => .ok .none) (by rfl)).2 .none (by rfl) rfl
